import Mathlib

/-!
Verification of the spreadsheet-template parsing core
(`services/base_parser.py`, `services/ba_parser.py`, `services/uix_parser.py`,
`services/eng_parser.py`, `services/parser_factory.py`,
`services/image_extractor.py`).

The Python code is shallowly embedded: raw cell values become the inductive
type `CellValue`, a workbook becomes an association list of named sheets,
each sheet being either a grid of cells or a `broken` marker standing for a
sheet whose read raises an exception (the exception message is the marker's
payload).  Python strings are Lean `String`s; the handful of string methods
the code uses (`lower`, `upper`, `strip`, `in`, `split`, `os.path.join`,
`os.path.basename`) are re-implemented below, character-list based so that
every definition reduces in the kernel.
-/

/-- Python `str.lower()` (character-wise, as used on the ASCII sheet data). -/

def pyLower (s : String) : String := String.mk (s.data.map Char.toLower)

/-- Python `str.upper()` (character-wise). -/

def pyUpper (s : String) : String := String.mk (s.data.map Char.toUpper)

/-- Python `str.strip()`: drop whitespace from both ends. -/

def pyStrip (s : String) : String :=
  String.mk (((s.data.dropWhile Char.isWhitespace).reverse.dropWhile Char.isWhitespace).reverse)

/-- `startsWithL hay pat` : does the char list `hay` start with `pat`? -/

def startsWithL : List Char → List Char → Bool
  | _, [] => true
  | [], _ :: _ => false
  | h :: hs, p :: ps => h = p && startsWithL hs ps

/-- Substring test on char lists (Python's `pat in hay` for strings). -/

def containsSub : List Char → List Char → Bool
  | [], pat => pat.isEmpty
  | h :: hs, pat => startsWithL (h :: hs) pat || containsSub hs pat

/-- Python `sub in s` for strings. -/

def strContains (s sub : String) : Bool := containsSub s.data sub.data

/-- First character of a string, if any. -/

def firstChar (s : String) : Option Char := s.data.head?

/-- Last character of a string, if any. -/

def lastChar (s : String) : Option Char := s.data.getLast?

/-- A raw spreadsheet cell value as pandas hands it to the parser:
missing (`NaN`), a string, a `datetime` (year, month, day), or an integer. -/

inductive CellValue where
  | nan : CellValue
  | str : String → CellValue
  | dt : Nat → Nat → Nat → CellValue
  | intv : Int → CellValue
deriving DecidableEq

/-- Zero-pad a month/day to two digits (`strftime` `%m` / `%d`). -/

def pad2 (n : Nat) : String := if n < 10 then "0" ++ toString n else toString n

/-- Zero-pad a year to four digits (`strftime` `%Y`). -/

def pad4 (n : Nat) : String :=
  if n < 10 then "000" ++ toString n
  else if n < 100 then "00" ++ toString n
  else if n < 1000 then "0" ++ toString n
  else toString n

/-- `datetime.strftime('%Y-%m-%d')`. -/

def fmtDate (y m d : Nat) : String := pad4 y ++ "-" ++ pad2 m ++ "-" ++ pad2 d

/-- Python `str(val)` on a cell value (`str(float('nan')) = "nan"`,
`str(datetime(...)) = "YYYY-MM-DD HH:MM:SS"`). -/

def pyStr : CellValue → String
  | .nan => "nan"
  | .str s => s
  | .dt y m d => fmtDate y m d ++ " 00:00:00"
  | .intv n => toString n

/-- `BaseParserService.clean_value` (`base_parser.py` lines 20-26):
`if pd.isna(val) or val == "" or str(val).lower() == "nan": return "-"`;
`if isinstance(val, datetime): return val.strftime('%Y-%m-%d')`;
`return str(val).strip()`. -/

def clean_value (val : CellValue) : String :=
  if val = CellValue.nan ∨ val = CellValue.str "" ∨ pyLower (pyStr val) = "nan" then "-"
  else
    match val with
    | CellValue.dt y m d => fmtDate y m d
    | v => pyStrip (pyStr v)

/-! ### Workbook model and the two sheet readers (`base_parser.py`) -/

/-- One worksheet as the reader sees it: either a grid of raw cell values
(row-major, as delivered by `pd.read_excel`, which since pandas 1.3 keeps
interior blank rows as all-NaN rows), or `broken msg`, standing for a sheet
whose read raises an exception with message `msg`. -/

inductive SheetData where
  | grid : List (List CellValue) → SheetData
  | broken : String → SheetData
deriving DecidableEq

/-- A workbook: its ordered, uniquely named sheets. -/

structure XlsDoc where
  sheets : List (String × SheetData)
deriving DecidableEq

/-- `self.xls.sheet_names`. -/

def sheetNames (doc : XlsDoc) : List String := doc.sheets.map Prod.fst

/-- Look a sheet up by name (pandas reads the sheet with that name). -/

def findSheet (doc : XlsDoc) (name : String) : Option SheetData :=
  doc.sheets.lookup name

/-- `row[c]`: pandas pads every row of a sheet to the frame width with NaN. -/

def getCell (row : List CellValue) (c : Nat) : CellValue := row.getD c CellValue.nan

/-- Association-list update with Python-dict semantics: overwrite in place if
the key exists, else append. -/

def assocInsert {α : Type} (d : List (String × α)) (k : String) (v : α) :
    List (String × α) :=
  if d.any (fun p => p.1 == k) then d.map (fun p => if p.1 == k then (k, v) else p)
  else d ++ [(k, v)]

/-- Python `d.get(k, dflt)`. -/

def assocGet {α : Type} (d : List (String × α)) (k : String) (dflt : α) : α :=
  match d.find? (fun p => p.1 == k) with
  | some p => p.2
  | none => dflt

/-- Python `k in d`. -/

def assocHas {α : Type} (d : List (String × α)) (k : String) : Bool :=
  d.any (fun p => p.1 == k)

/-- The mappings produced by the key-value reader: JSON string-to-string. -/

abbrev Dict := List (String × String)

/-- The key normalization of `parse_key_value_sheet` (line 51):
`str(key).lower().replace(" ", "_").replace(":", "").replace("/", "_").replace("(", "").replace(")", "")`.
All five patterns are single characters, so the chain is one character map. -/

def cleanKeyChar (c : Char) : List Char :=
  if c = ' ' then ['_']
  else if c = ':' then []
  else if c = '/' then ['_']
  else if c = '(' then []
  else if c = ')' then []
  else [c]

def cleanKeyChars : List Char → List Char
  | [] => []
  | c :: cs => cleanKeyChar c ++ cleanKeyChars cs

def cleanKey (s : String) : String := String.mk (cleanKeyChars (pyLower s).data)

/-- Default `skip_headers` of `parse_key_value_sheet`. -/

def defaultSkipHeaders : List String := ["field", "metric", "success metrics"]

/-- `BaseParserService.parse_key_value_sheet` (`base_parser.py` lines 28-58).
The result pairs the returned mapping with the updated `self.errors` list.
A missing sheet yields an empty mapping with no error; a sheet whose read
raises is caught and converted into an appended error string.  Rows whose
key or value is NaN, or whose lower-cased key is a skip header, are skipped. -/

def parseKeyValueSheet (doc : XlsDoc) (sheet_name : String)
    (key_column value_column : Nat) (skip_headers : List String)
    (errors : List String) : Dict × List String :=
  match findSheet doc sheet_name with
  | none => ([], errors)
  | some (SheetData.broken msg) =>
      ([], errors ++ ["Error parsing " ++ sheet_name ++ ": " ++ msg])
  | some (SheetData.grid rows) =>
      (rows.foldl (fun acc row =>
        let key := getCell row key_column
        let val := getCell row value_column
        if key ≠ CellValue.nan ∧ val ≠ CellValue.nan
            ∧ pyLower (pyStr key) ∉ skip_headers then
          assocInsert acc (cleanKey (pyStr key)) (clean_value val)
        else acc) [], errors)

/-- Record values appearing in a tabular row after the per-template
enrichments: plain cell strings, derived integers (`duration_days`) and
derived booleans (`is_image`, `url_valid`, ...). -/

inductive JVal where
  | s : String → JVal
  | n : Nat → JVal
  | b : Bool → JVal
deriving DecidableEq

/-- One tabular record: header label to value, in column order. -/

abbrev Record := List (String × JVal)

/-- One data row of `parse_tabular_sheet`:
`{k: self.clean_value(v) for k, v in row.items()}` — one entry per header
label, the row padded with NaN to the header's width. -/

def recordOfRow : List CellValue → List CellValue → Record
  | [], _ => []
  | h :: hs, row =>
      (pyStr h, JVal.s (clean_value (row.headD CellValue.nan))) :: recordOfRow hs row.tail

/-- `BaseParserService.parse_tabular_sheet` (`base_parser.py` lines 60-79):
first row is the header, each subsequent row becomes one record; missing
sheet yields `[]` silently; a raising read is caught into an error string. -/

def parseTabularSheet (doc : XlsDoc) (sheet_name : String)
    (errors : List String) : List Record × List String :=
  match findSheet doc sheet_name with
  | none => ([], errors)
  | some (SheetData.broken msg) =>
      ([], errors ++ ["Error parsing " ++ sheet_name ++ ": " ++ msg])
  | some (SheetData.grid []) => ([], errors)
  | some (SheetData.grid (header :: data)) =>
      (data.map (recordOfRow header), errors)

/-! ### Duration parsing (`eng_parser.py` lines 147-171) -/

/-- Decimal value of a digit run. -/

def digitsVal (ds : List Char) : Nat :=
  ds.foldl (fun a c => a * 10 + (c.toNat - 48)) 0

/-- The first maximal digit run of a char list (`re.search(r'(\d+)', s)`). -/

def firstRun : List Char → Option (List Char)
  | [] => none
  | c :: cs => if c.isDigit then some (c :: cs.takeWhile Char.isDigit) else firstRun cs

/-- `int(re.search(r'(\d+)', s).group(1))`, when a digit run exists. -/

def firstNumber (s : String) : Option Nat := (firstRun s.data).map digitsVal

/-- `EngineerParserService._parse_duration_to_days` (`eng_parser.py` lines
147-171): lower-case the string; if it contains "week" multiply the first
number by 7; elif "day", take the number as-is; elif "month", multiply by
30; in every other case (including a recognized unit with no digits, where
`re.search` finds nothing) fall through to `return 0`. -/

def parse_duration_to_days (duration_str : String) : Nat :=
  let s := pyLower duration_str
  if strContains s "week" then
    match firstNumber s with
    | some weeks => weeks * 7
    | none => 0
  else if strContains s "day" then
    match firstNumber s with
    | some n => n
    | none => 0
  else if strContains s "month" then
    match firstNumber s with
    | some months => months * 30
    | none => 0
  else 0

/-! ### Template classification and factory (`parser_factory.py`) -/

/-- The three template variants. -/

inductive TemplateKind where
  | UIUX : TemplateKind
  | ENGINEER : TemplateKind
  | BA : TemplateKind
deriving DecidableEq

/-- `get_template_type` of each variant. -/

def getTemplateType : TemplateKind → String
  | .UIUX => "UIUX"
  | .ENGINEER => "ENGINEER"
  | .BA => "BA"

/-- `get_template_sheets` of each variant (`uix_parser.py` lines 10-17,
`eng_parser.py` lines 11-19, `ba_parser.py` lines 10-17). -/

def getTemplateSheets : TemplateKind → List String
  | .UIUX => ["Design Overview", "Figma Links", "Design Assets",
      "Design Decisions", "Approval"]
  | .ENGINEER => ["Project Info", "Tech Stack", "Development Estimate",
      "Architecture Documents", "Infrastructure", "Approval"]
  | .BA => ["Product Overview", "User Story", "Acceptance Criteria",
      "Business Value", "BA Approval"]

/-- `get_template_priority` of each variant (UIUX 3, ENGINEER 3, BA 1). -/

def getTemplatePriority : TemplateKind → Nat
  | .UIUX => 3
  | .ENGINEER => 3
  | .BA => 1

/-- `ParserFactory._parsers`, in registration order (BA last, kept as the
intended fallback per the source comment). -/

def parserRegistry : List TemplateKind := [.UIUX, .ENGINEER, .BA]

/-- The classification score of one variant against the workbook's sheet
names: `(matches * priority) / total_expected`, and 0 for an empty
expected list (`parser_factory.py` lines 40-46). -/

def templateScore (k : TemplateKind) (sheet_names : List String) : ℚ :=
  let expected := getTemplateSheets k
  let nMatches := (expected.filter (fun s => s ∈ sheet_names)).length
  if expected.length > 0 then
    ((nMatches * getTemplatePriority k : Nat) : ℚ) / (expected.length : ℚ)
  else 0

/-- The head of `parser_scores` after the stable descending sort by score
(`parser_scores.sort(key=..., reverse=True)` is stable, so the head is the
first listed variant attaining the maximum score); realized directly as a
left fold that replaces the current best only on a strictly greater score. -/

def pickBest (scores : List (TemplateKind × ℚ)) : TemplateKind × ℚ :=
  match scores with
  | [] => (.BA, 0)
  | x :: xs => xs.foldl (fun best p => if p.2 > best.2 then p else best) x

/-- `ParserFactory.detect_template_type` (`parser_factory.py` lines 17-71).
The argument is the outcome of opening the byte buffer: `Except.error`
stands for `pd.ExcelFile` raising (the whole body is one `try`, whose
handler returns "BA"); `Except.ok names` gives the workbook's sheet names. -/

def detectTemplateType (opened : Except String (List String)) : String :=
  match opened with
  | .error _ => "BA"
  | .ok sheet_names =>
      getTemplateType
        (pickBest (parserRegistry.map (fun k => (k, templateScore k sheet_names)))).1

/-- `ParserFactory._get_parser_class` (`parser_factory.py` lines 92-101). -/

def getParserClass (template_type : String) : Option TemplateKind :=
  if template_type = "UIUX" then some .UIUX
  else if template_type = "ENGINEER" then some .ENGINEER
  else if template_type = "BA" then some .BA
  else none

/-- `ParserFactory.create_parser` (`parser_factory.py` lines 73-90): detect
only when no explicit type is given; raise `ValueError("Unknown template
type: ...")` when the (explicit or detected) tag maps to no variant. -/

def createParser (opened : Except String (List String))
    (template_type : Option String) : Except String TemplateKind :=
  let t := match template_type with
    | none => detectTemplateType opened
    | some s => s
  match getParserClass t with
  | some k => Except.ok k
  | none => Except.error ("Unknown template type: " ++ t)

/-! ### Image extraction subsystem (`image_extractor.py`) -/

/-- One extracted-image descriptor, the dictionary built by
`_process_openpyxl_image` / `_process_zip_image`. -/

structure ImgRec where
  image_type : String
  sheet_name : String
  cell_reference : Option String
  file_name : String
  file_path : String
  file_size : Nat
  mime_type : Option String
  width : Option Nat
  height : Option Nat
  extraction_method : String
deriving DecidableEq

/-- `s.startswith(p)` for strings. -/

def startsWithS (s p : String) : Bool := startsWithL s.data p.data

/-- `os.path.join(a, b)` (posix): if `b` is absolute take `b`; if `a` is
empty or ends with the separator, concatenate; else insert one separator. -/

def pyJoin2 (a b : String) : String :=
  if firstChar b = some '/' then b
  else if a = "" ∨ lastChar a = some '/' then a ++ b
  else a ++ "/" ++ b

/-- `os.path.join(a, b, c, d)`. -/

def pyJoin4 (a b c d : String) : String := pyJoin2 (pyJoin2 (pyJoin2 a b) c) d

/-- `os.path.basename`: everything after the last separator. -/

def basenameS (s : String) : String :=
  String.mk ((s.data.reverse.takeWhile (fun c => c ≠ '/')).reverse)

/-- `ImageExtractor._determine_image_type` (lines 202-214): keyword match
against the owning sheet's name. -/

def determineImageType (sheet_name : String) : String :=
  if ["design", "ui", "ux", "mockup", "wireframe"].any
      (fun kw => strContains (pyLower sheet_name) kw) then "mockups"
  else if ["screenshot", "screen", "capture"].any
      (fun kw => strContains (pyLower sheet_name) kw) then "screenshots"
  else if ["diagram", "arch", "flow", "chart"].any
      (fun kw => strContains (pyLower sheet_name) kw) then "diagrams"
  else "wireframes"

/-- `ImageExtractor._determine_image_type_from_path` (lines 216-227). -/

def determineImageTypeFromPath (file_path : String) : String :=
  if strContains (pyLower file_path) "design" || strContains (pyLower file_path) "mockup"
      || strContains (pyLower file_path) "ui" then "mockups"
  else if strContains (pyLower file_path) "screenshot"
      || strContains (pyLower file_path) "screen" then "screenshots"
  else if strContains (pyLower file_path) "diagram"
      || strContains (pyLower file_path) "arch" then "diagrams"
  else "wireframes"

/-- `ImageExtractor._get_image_extension` (lines 229-245): sniff the file
extension from the magic bytes, defaulting to png. -/

def getImageExtension (image_bytes : List Nat) : String :=
  if image_bytes.take 8 = [0x89, 0x50, 0x4E, 0x47, 0x0D, 0x0A, 0x1A, 0x0A] then "png"
  else if image_bytes.take 3 = [0xFF, 0xD8, 0xFF] then "jpg"
  else if image_bytes.take 6 = [0x47, 0x49, 0x46, 0x38, 0x37, 0x61]
      ∨ image_bytes.take 6 = [0x47, 0x49, 0x46, 0x38, 0x39, 0x61] then "gif"
  else if image_bytes.take 2 = [0x42, 0x4D] then "bmp"
  else "png"

/-- One embedded image found by the openpyxl pass: owning sheet, anchor,
raw bytes (an image whose `_data()` is missing or raises is dropped before
this point, per the `return None` paths). -/

structure SheetImage where
  sheet_name : String
  anchor : Option String
  image_bytes : List Nat
deriving DecidableEq

/-- One archive entry of the raw-ZIP pass. -/

structure ZipEntry where
  filename : String
  content : List Nat
deriving DecidableEq

/-- `ImageExtractor._process_openpyxl_image` (lines 102-151).  `pil` stands
for `PIL.Image.open`: `some (w, h, mime)` on a decodable image, `none`
when decoding raises (then width/height/mime are all None).  `uuid_name`
is the fresh name from `uuid.uuid4()`. -/

def processOpenpyxlImage (batch_id document_id : String)
    (pil : List Nat → Option (Nat × Nat × Option String))
    (uuid_name : String) (img : SheetImage) : ImgRec :=
  let image_type := determineImageType img.sheet_name
  let file_name := uuid_name ++ "." ++ getImageExtension img.image_bytes
  let relative_path := pyJoin4 batch_id document_id image_type file_name
  let dims := pil img.image_bytes
  { image_type := image_type
    sheet_name := img.sheet_name
    cell_reference := img.anchor
    file_name := file_name
    file_path := relative_path
    file_size := img.image_bytes.length
    mime_type := dims.bind (fun p => p.2.2)
    width := dims.map Prod.fst
    height := dims.map (fun p => p.2.1)
    extraction_method := "openpyxl" }

/-- `ImageExtractor._process_zip_image` (lines 153-200): the stored file
name is `os.path.basename` of the archive entry — not a generated name. -/

def processZipImage (batch_id document_id : String)
    (pil : List Nat → Option (Nat × Nat × Option String))
    (e : ZipEntry) : ImgRec :=
  let image_type := determineImageTypeFromPath e.filename
  let file_name := basenameS e.filename
  let relative_path := pyJoin4 batch_id document_id image_type file_name
  let dims := pil e.content
  { image_type := image_type
    sheet_name := "Unknown (ZIP extraction)"
    cell_reference := none
    file_name := file_name
    file_path := relative_path
    file_size := e.content.length
    mime_type := dims.bind (fun p => p.2.2)
    width := dims.map Prod.fst
    height := dims.map (fun p => p.2.1)
    extraction_method := "zip_extraction" }

/-- `ImageExtractor._extract_with_openpyxl` (lines 55-82), indexed so that
the i-th processed image receives the i-th fresh `uuid4` name `uuidGen i`. -/

def extractWithOpenpyxlFrom (batch_id document_id : String) (uuidGen : Nat → String)
    (pil : List Nat → Option (Nat × Nat × Option String)) :
    Nat → List SheetImage → List ImgRec
  | _, [] => []
  | i, img :: rest =>
      processOpenpyxlImage batch_id document_id pil (uuidGen i) img ::
        extractWithOpenpyxlFrom batch_id document_id uuidGen pil (i + 1) rest

def extractWithOpenpyxl (batch_id document_id : String) (uuidGen : Nat → String)
    (pil : List Nat → Option (Nat × Nat × Option String))
    (imgs : List SheetImage) : List ImgRec :=
  extractWithOpenpyxlFrom batch_id document_id uuidGen pil 0 imgs

/-- `ImageExtractor._extract_with_zip` (lines 84-100): process every
archive entry under `xl/media/`. -/

def extractWithZip (batch_id document_id : String)
    (pil : List Nat → Option (Nat × Nat × Option String))
    (entries : List ZipEntry) : List ImgRec :=
  (entries.filter (fun e => startsWithS e.filename "xl/media/")).map
    (processZipImage batch_id document_id pil)

/-- The deduplication key of `_remove_duplicates`:
`(img['file_size'], img['image_type'])`. -/

def dedupKey (img : ImgRec) : Nat × String := (img.file_size, img.image_type)

/-- The loop of `_remove_duplicates` with its `seen` set of keys. -/

def removeDuplicatesAux (seen : List (Nat × String)) : List ImgRec → List ImgRec
  | [] => []
  | img :: rest =>
      if dedupKey img ∈ seen then removeDuplicatesAux seen rest
      else img :: removeDuplicatesAux (dedupKey img :: seen) rest

/-- `ImageExtractor._remove_duplicates` (lines 247-260). -/

def remove_duplicates (images : List ImgRec) : List ImgRec :=
  removeDuplicatesAux [] images

/-- `ImageExtractor.extract_images_from_excel` (lines 35-53): run both
passes, concatenate, deduplicate. -/

def extractImagesFromExcel (batch_id document_id : String) (uuidGen : Nat → String)
    (pil : List Nat → Option (Nat × Nat × Option String))
    (sheet_images : List SheetImage) (zip_entries : List ZipEntry) : List ImgRec :=
  remove_duplicates
    (extractWithOpenpyxl batch_id document_id uuidGen pil sheet_images
      ++ extractWithZip batch_id document_id pil zip_entries)

/-! ### Record helpers shared by the template services -/

/-- Find a record entry by key. -/

def recFind (r : Record) (k : String) : Option JVal :=
  (r.find? (fun p => p.1 == k)).map Prod.snd

/-- Read a string-valued field with a default (`d.get(k, dflt)` where the
value is a cell string). -/

def getRecS (r : Record) (k dflt : String) : String :=
  match recFind r k with
  | some (JVal.s v) => v
  | some _ => dflt
  | none => dflt

/-- Read an integer-valued field with a default. -/

def getRecN (r : Record) (k : String) (dflt : Nat) : Nat :=
  match recFind r k with
  | some (JVal.n v) => v
  | some _ => dflt
  | none => dflt

/-- Python truthiness of a record value. -/

def jTruthy : JVal → Bool
  | JVal.s v => !(v == "")
  | JVal.n v => !(v == 0)
  | JVal.b v => v

/-- `d.get(k, dflt)` used in a boolean position. -/

def getRecTruthy (r : Record) (k : String) (dflt : Bool) : Bool :=
  match recFind r k with
  | some v => jTruthy v
  | none => dflt

/-- One entry of `generate_image_metadata` (`base_parser.py` lines 97-117);
its `id` is a fresh uuid4, modelled by the generator `idGen`. -/

structure ImgMeta where
  id : String
  type : String
  file_name : String
  file_path : String
  url : String
  sheet_name : String
  cell_reference : Option String
  file_size : Nat
  width : Option Nat
  height : Option Nat
  mime_type : Option String
deriving DecidableEq

/-- `BaseParserService.generate_image_metadata`. -/

def generateImageMetadata (idGen : Nat → String) (imgs : List ImgRec) : List ImgMeta :=
  if imgs.isEmpty then []
  else imgs.enum.map (fun p =>
    { id := idGen p.1
      type := p.2.image_type
      file_name := p.2.file_name
      file_path := p.2.file_path
      url := "/api/images/" ++ p.2.file_path
      sheet_name := p.2.sheet_name
      cell_reference := p.2.cell_reference
      file_size := p.2.file_size
      width := p.2.width
      height := p.2.height
      mime_type := p.2.mime_type })

/-! ### BA template service (`ba_parser.py`) -/

structure BAStats where
  total_us : Nat
  total_ac : Nat
  total_bv : Nat
  total_images : Nat
  has_ba_approval : Bool
  has_images : Bool
  template_type : String
deriving DecidableEq

structure BAMetadata where
  product_details : Dict
  business_values : Dict
  ba_approval : Dict
  user_stories : List Record
  acceptance_criteria : List Record
  images : List ImgMeta
  approval_status : String
  parsing_stats : BAStats
deriving DecidableEq

structure BAResult where
  title : String
  category_name : String
  template_type : String
  metadata : BAMetadata
  errors : List String
  extracted_images : List ImgRec
deriving DecidableEq

/-- `BAParserService.process_file` (`ba_parser.py` lines 45-98).
`extracted_images` stands for the outcome of `extract_images` (empty when
the correlation ids are absent); `idGen` feeds the uuid4 ids of
`generate_image_metadata`. -/

def baProcessFile (doc : XlsDoc) (extracted_images : List ImgRec)
    (idGen : Nat → String) : BAResult :=
  let r1 := parseKeyValueSheet doc "Product Overview" 0 1 defaultSkipHeaders []
  let overview := r1.1
  let r2 := parseTabularSheet doc "User Story" r1.2
  let user_stories := r2.1
  let r3 := parseTabularSheet doc "Acceptance Criteria" r2.2
  let acceptance_criteria := r3.1
  let r4 := parseKeyValueSheet doc "Business Value" 0 1
    ["field", "metric", "success metrics"] r3.2
  let business_values := r4.1
  let r5 := parseKeyValueSheet doc "BA Approval" 0 1 defaultSkipHeaders r4.2
  let ba_approval := r5.1
  let doc_title := assocGet overview "product_name" "Untitled Product"
  let category_name := assocGet overview "category" "Uncategorized"
  let image_metadata := generateImageMetadata idGen extracted_images
  let approval_status :=
    if ba_approval ≠ [] then
      let status_field := pyUpper (assocGet ba_approval "status" "")
      if status_field = "APPROVED" ∨ status_field = "REJECTED" ∨ status_field = "PENDING"
      then status_field
      else "PENDING"
    else "PENDING"
  { title := doc_title
    category_name := category_name
    template_type := getTemplateType TemplateKind.BA
    metadata :=
      { product_details := overview
        business_values := business_values
        ba_approval := ba_approval
        user_stories := user_stories
        acceptance_criteria := acceptance_criteria
        images := image_metadata
        approval_status := approval_status
        parsing_stats :=
          { total_us := user_stories.length
            total_ac := acceptance_criteria.length
            total_bv := business_values.length
            total_images := extracted_images.length
            has_ba_approval := decide (ba_approval.length > 0)
            has_images := decide (extracted_images.length > 0)
            template_type := getTemplateType TemplateKind.BA } }
    errors := r5.2
    extracted_images := extracted_images }

/-! ### UIUX template service (`uix_parser.py`) -/

/-- `UIUXParserService._extract_figma_file_id` (lines 107-119): the text
after the first "/file/" up to the next "/" (equivalently
`url.split('/file/')[1].split('/')[0]`, since a later "/file/" occurrence
itself begins with "/"); empty string when "/file/" does not occur. -/

def afterSub : List Char → List Char → Option (List Char)
  | [], _ => none
  | c :: rest, pat =>
      if startsWithL (c :: rest) pat then some ((c :: rest).drop pat.length)
      else afterSub rest pat

def extractFigmaFileId (url : String) : String :=
  match afterSub url.data "/file/".data with
  | some rest => String.mk (rest.takeWhile (fun c => c ≠ '/'))
  | none => ""

/-- One data row of `parse_figma_links` (lines 26-55). -/

def uixFigmaRow (header row : List CellValue) : Record :=
  let clean_row := recordOfRow header row
  if assocHas clean_row "figma_url" then
    let url := getRecS clean_row "figma_url" ""
    if url ≠ "" ∧ url ≠ "-" ∧ strContains (pyLower url) "figma.com" = true then
      assocInsert
        (assocInsert clean_row "figma_file_id" (JVal.s (extractFigmaFileId url)))
        "url_valid" (JVal.b true)
    else assocInsert clean_row "url_valid" (JVal.b false)
  else clean_row

def parseFigmaLinks (doc : XlsDoc) (errors : List String) :
    List Record × List String :=
  match findSheet doc "Figma Links" with
  | none => ([], errors)
  | some (SheetData.broken msg) =>
      ([], errors ++ ["Error parsing Figma Links: " ++ msg])
  | some (SheetData.grid []) => ([], errors)
  | some (SheetData.grid (header :: data)) => (data.map (uixFigmaRow header), errors)

/-- One data row of `parse_design_assets` (lines 57-89). -/

def uixAssetRow (header row : List CellValue) : Record :=
  let clean_row := recordOfRow header row
  let r1 :=
    if assocHas clean_row "file_type" then
      assocInsert
        (assocInsert clean_row "is_image"
          (JVal.b (["PNG", "JPG", "JPEG", "GIF", "SVG"].contains
            (pyUpper (getRecS clean_row "file_type" "")))))
        "is_design_file"
        (JVal.b (["FIG", "SKETCH", "PSD", "AI"].contains
          (pyUpper (getRecS clean_row "file_type" ""))))
    else clean_row
  if assocHas r1 "asset_name" then
    assocInsert r1 "requires_separate_upload"
      (JVal.b (["screenshot", "mockup", "prototype", "design", "wireframe"].any
        (fun kw => strContains (pyLower (getRecS r1 "asset_name" "")) kw)))
  else r1

def parseDesignAssets (doc : XlsDoc) (errors : List String) :
    List Record × List String :=
  match findSheet doc "Design Assets" with
  | none => ([], errors)
  | some (SheetData.broken msg) =>
      ([], errors ++ ["Error parsing Design Assets: " ++ msg])
  | some (SheetData.grid []) => ([], errors)
  | some (SheetData.grid (header :: data)) => (data.map (uixAssetRow header), errors)

/-- `UIUXParserService.parse_approval` (lines 95-105): when the Approval
mapping is non-empty, upper-case its `status` (default "PENDING") into
`approval_status` and tag `division = UIUX`. -/

def uixParseApproval (doc : XlsDoc) (errors : List String) : Dict × List String :=
  let res := parseKeyValueSheet doc "Approval" 0 1 defaultSkipHeaders errors
  if res.1 ≠ [] then
    (assocInsert
      (assocInsert res.1 "approval_status" (pyUpper (assocGet res.1 "status" "PENDING")))
      "division" "UIUX", res.2)
  else res

structure UixStats where
  total_figma_links : Nat
  total_design_assets : Nat
  total_design_decisions : Nat
  total_images : Nat
  assets_needing_upload : Nat
  has_figma_links : Bool
  has_design_assets : Bool
  has_approval : Bool
  has_images : Bool
  template_type : String
deriving DecidableEq

structure UixMetadata where
  design_overview : Dict
  figma_links : List Record
  design_assets : List Record
  design_decisions : List Record
  approval : Dict
  images : List ImgMeta
  assets_requiring_separate_upload : List Record
  approval_status : String
  parsing_stats : UixStats
deriving DecidableEq

structure UixSpecial where
  separate_asset_upload : Bool
  figma_integration : Bool
deriving DecidableEq

structure UixResult where
  title : String
  category_name : String
  template_type : String
  metadata : UixMetadata
  errors : List String
  extracted_images : List ImgRec
  special_requirements : UixSpecial
deriving DecidableEq

/-- `UIUXParserService.process_file` (`uix_parser.py` lines 121-184). -/

def uixProcessFile (doc : XlsDoc) (extracted_images : List ImgRec)
    (idGen : Nat → String) : UixResult :=
  let r1 := parseKeyValueSheet doc "Design Overview" 0 1 defaultSkipHeaders []
  let design_overview := r1.1
  let r2 := parseFigmaLinks doc r1.2
  let figma_links := r2.1
  let r3 := parseDesignAssets doc r2.2
  let design_assets := r3.1
  let r4 := parseTabularSheet doc "Design Decisions" r3.2
  let design_decisions := r4.1
  let r5 := uixParseApproval doc r4.2
  let approval := r5.1
  let doc_title := assocGet design_overview "product_name"
    (assocGet design_overview "project_name" "Untitled UIUX Project")
  let image_metadata := generateImageMetadata idGen extracted_images
  let assets_requiring_upload :=
    design_assets.filter (fun a => getRecTruthy a "requires_separate_upload" false)
  let approval_status := assocGet approval "approval_status" "PENDING"
  { title := doc_title
    category_name := "UIUX Design"
    template_type := getTemplateType TemplateKind.UIUX
    metadata :=
      { design_overview := design_overview
        figma_links := figma_links
        design_assets := design_assets
        design_decisions := design_decisions
        approval := approval
        images := image_metadata
        assets_requiring_separate_upload := assets_requiring_upload
        approval_status := approval_status
        parsing_stats :=
          { total_figma_links := figma_links.length
            total_design_assets := design_assets.length
            total_design_decisions := design_decisions.length
            total_images := extracted_images.length
            assets_needing_upload := assets_requiring_upload.length
            has_figma_links := decide (figma_links.length > 0)
            has_design_assets := decide (design_assets.length > 0)
            has_approval := decide (approval.length > 0)
            has_images := decide (extracted_images.length > 0)
            template_type := getTemplateType TemplateKind.UIUX } }
    errors := r5.2
    extracted_images := extracted_images
    special_requirements :=
      { separate_asset_upload := decide (assets_requiring_upload.length > 0)
        figma_integration := decide (figma_links.length > 0) } }

/-! ### Engineer template service (`eng_parser.py`) -/

/-- `EngineerParserService._categorize_tech_layer` (lines 131-145). -/

def categorizeTechLayer (layer : String) : String :=
  if strContains (pyLower layer) "frontend" || strContains (pyLower layer) "ui" then
    "frontend"
  else if strContains (pyLower layer) "backend" || strContains (pyLower layer) "api" then
    "backend"
  else if strContains (pyLower layer) "database" || strContains (pyLower layer) "data" then
    "database"
  else if strContains (pyLower layer) "infrastructure"
      || strContains (pyLower layer) "devops" then "infrastructure"
  else if strContains (pyLower layer) "testing" || strContains (pyLower layer) "qa" then
    "testing"
  else "other"

/-- One data row of `parse_tech_stack` (lines 28-51): the layer is
lower-cased before categorization. -/

def engTechRow (header row : List CellValue) : Record :=
  let clean_row := recordOfRow header row
  if assocHas clean_row "layer" then
    assocInsert clean_row "category"
      (JVal.s (categorizeTechLayer (pyLower (getRecS clean_row "layer" ""))))
  else clean_row

def parseTechStack (doc : XlsDoc) (errors : List String) :
    List Record × List String :=
  match findSheet doc "Tech Stack" with
  | none => ([], errors)
  | some (SheetData.broken msg) =>
      ([], errors ++ ["Error parsing Tech Stack: " ++ msg])
  | some (SheetData.grid []) => ([], errors)
  | some (SheetData.grid (header :: data)) => (data.map (engTechRow header), errors)

/-- The per-date-field enrichment of `parse_development_estimate`
(lines 71-75): `*_parsed` is set when the cleaned value is truthy and not
the dash sentinel. -/

def engDateField (r : Record) (f : String) : Record :=
  if assocHas r f then
    let date_val := getRecS r f ""
    if date_val ≠ "" ∧ date_val ≠ "-" then
      assocInsert r (f ++ "_parsed") (JVal.s date_val)
    else r
  else r

/-- One data row of `parse_development_estimate` (lines 53-83). -/

def engDevRow (header row : List CellValue) : Record :=
  let clean_row := recordOfRow header row
  let r1 :=
    if assocHas clean_row "duration" then
      assocInsert clean_row "duration_days"
        (JVal.n (parse_duration_to_days (getRecS clean_row "duration" "")))
    else clean_row
  engDateField (engDateField r1 "start_date") "end_date"

def parseDevelopmentEstimate (doc : XlsDoc) (errors : List String) :
    List Record × List String :=
  match findSheet doc "Development Estimate" with
  | none => ([], errors)
  | some (SheetData.broken msg) =>
      ([], errors ++ ["Error parsing Development Estimate: " ++ msg])
  | some (SheetData.grid []) => ([], errors)
  | some (SheetData.grid (header :: data)) => (data.map (engDevRow header), errors)

/-- One data row of `parse_architecture_documents` (lines 85-113). -/

def engArchRow (header row : List CellValue) : Record :=
  let clean_row := recordOfRow header row
  if assocHas clean_row "type" then
    let r1 := assocInsert clean_row "is_diagram"
      (JVal.b (["PNG", "JPG", "JPEG", "SVG", "PDF"].contains
        (pyUpper (getRecS clean_row "type" ""))))
    let r2 := assocInsert r1 "is_document"
      (JVal.b (["PDF", "DOC", "DOCX", "TXT"].contains
        (pyUpper (getRecS clean_row "type" ""))))
    assocInsert r2 "is_technical_spec"
      (JVal.b (["architecture", "schema", "api", "technical", "specification"].any
        (fun kw => strContains (pyLower (getRecS r2 "document_name" "")) kw)))
  else clean_row

def parseArchitectureDocuments (doc : XlsDoc) (errors : List String) :
    List Record × List String :=
  match findSheet doc "Architecture Documents" with
  | none => ([], errors)
  | some (SheetData.broken msg) =>
      ([], errors ++ ["Error parsing Architecture Documents: " ++ msg])
  | some (SheetData.grid []) => ([], errors)
  | some (SheetData.grid (header :: data)) => (data.map (engArchRow header), errors)

/-- `EngineerParserService.parse_approval` (lines 119-129): same shape as
the UIUX one, tagged `division = ENGINEERING`. -/

def engParseApproval (doc : XlsDoc) (errors : List String) : Dict × List String :=
  let res := parseKeyValueSheet doc "Approval" 0 1 defaultSkipHeaders errors
  if res.1 ≠ [] then
    (assocInsert
      (assocInsert res.1 "approval_status" (pyUpper (assocGet res.1 "status" "PENDING")))
      "division" "ENGINEERING", res.2)
  else res

structure EngMetrics where
  total_development_days : Nat
  total_phases : Nat
  technologies_count : Nat
  architecture_docs_count : Nat
deriving DecidableEq

structure EngStats where
  total_tech_stack : Nat
  total_dev_phases : Nat
  total_arch_docs : Nat
  total_images : Nat
  total_dev_days : Nat
  has_tech_stack : Bool
  has_dev_estimate : Bool
  has_architecture_docs : Bool
  has_infrastructure : Bool
  has_approval : Bool
  has_images : Bool
  template_type : String
deriving DecidableEq

structure EngMetadata where
  project_info : Dict
  tech_stack : List Record
  development_estimate : List Record
  architecture_documents : List Record
  infrastructure : Dict
  approval : Dict
  images : List ImgMeta
  approval_status : String
  engineering_metrics : EngMetrics
  parsing_stats : EngStats
deriving DecidableEq

structure EngSpecial where
  architecture_diagrams : Bool
  technical_specifications : Bool
deriving DecidableEq

structure EngResult where
  title : String
  category_name : String
  template_type : String
  metadata : EngMetadata
  errors : List String
  extracted_images : List ImgRec
  special_requirements : EngSpecial
deriving DecidableEq

/-- `EngineerParserService.process_file` (`eng_parser.py` lines 173-242). -/

def engProcessFile (doc : XlsDoc) (extracted_images : List ImgRec)
    (idGen : Nat → String) : EngResult :=
  let r1 := parseKeyValueSheet doc "Project Info" 0 1 defaultSkipHeaders []
  let project_info := r1.1
  let r2 := parseTechStack doc r1.2
  let tech_stack := r2.1
  let r3 := parseDevelopmentEstimate doc r2.2
  let dev_estimate := r3.1
  let r4 := parseArchitectureDocuments doc r3.2
  let arch_documents := r4.1
  let r5 := parseKeyValueSheet doc "Infrastructure" 0 1 defaultSkipHeaders r4.2
  let infrastructure := r5.1
  let r6 := engParseApproval doc r5.2
  let approval := r6.1
  let doc_title := assocGet project_info "project_name"
    (assocGet project_info "product_name" "Untitled Engineering Project")
  let image_metadata := generateImageMetadata idGen extracted_images
  let total_dev_days := (dev_estimate.map (fun it => getRecN it "duration_days" 0)).sum
  let approval_status := assocGet approval "approval_status" "PENDING"
  { title := doc_title
    category_name := "Engineering"
    template_type := getTemplateType TemplateKind.ENGINEER
    metadata :=
      { project_info := project_info
        tech_stack := tech_stack
        development_estimate := dev_estimate
        architecture_documents := arch_documents
        infrastructure := infrastructure
        approval := approval
        images := image_metadata
        approval_status := approval_status
        engineering_metrics :=
          { total_development_days := total_dev_days
            total_phases := dev_estimate.length
            technologies_count := tech_stack.length
            architecture_docs_count := arch_documents.length }
        parsing_stats :=
          { total_tech_stack := tech_stack.length
            total_dev_phases := dev_estimate.length
            total_arch_docs := arch_documents.length
            total_images := extracted_images.length
            total_dev_days := total_dev_days
            has_tech_stack := decide (tech_stack.length > 0)
            has_dev_estimate := decide (dev_estimate.length > 0)
            has_architecture_docs := decide (arch_documents.length > 0)
            has_infrastructure := decide (infrastructure.length > 0)
            has_approval := decide (approval.length > 0)
            has_images := decide (extracted_images.length > 0)
            template_type := getTemplateType TemplateKind.ENGINEER } }
    errors := r6.2
    extracted_images := extracted_images
    special_requirements :=
      { architecture_diagrams := decide (arch_documents.length > 0)
        technical_specifications := decide (tech_stack.length > 0) } }

/-! ### Theorems -/

theorem pyLower_length (s : String) : (pyLower s).length = s.length := by
  show (s.data.map Char.toLower).length = s.data.length
  exact List.length_map s.data Char.toLower

theorem pyStr_dt_length (y m d : Nat) : 9 ≤ (pyStr (CellValue.dt y m d)).length := by
  have h : (pyStr (CellValue.dt y m d)).length
      = (fmtDate y m d).length + (" 00:00:00" : String).length := String.length_append _ _
  have h9 : (" 00:00:00" : String).length = 9 := rfl
  omega

/-- The blank test of `clean_value` never fires on a `datetime`: the textual
form `YYYY-MM-DD HH:MM:SS` is too long to be `"nan"`. -/
theorem dt_not_nan_form (y m d : Nat) : pyLower (pyStr (CellValue.dt y m d)) ≠ "nan" := by
  intro h
  have hlen := congrArg String.length h
  rw [pyLower_length] at hlen
  have h3 : ("nan" : String).length = 3 := rfl
  have := pyStr_dt_length y m d
  omega

/-- C7: `clean_value` is a total, pure function on raw cell values: it
returns "-" when the value is absent (NaN), the empty string, or has
lower-cased string form "nan"; returns the value formatted as YYYY-MM-DD
when it is a datetime; and otherwise returns the value's trimmed string
form.  Totality is by construction: `clean_value` is a total Lean function
covering every `CellValue`. -/
theorem C7_clean_value_cases (val : CellValue) :
    ((val = CellValue.nan ∨ val = CellValue.str "" ∨ pyLower (pyStr val) = "nan") →
      clean_value val = "-")
    ∧ (∀ y m d, val = CellValue.dt y m d → clean_value val = fmtDate y m d)
    ∧ (val ≠ CellValue.nan → val ≠ CellValue.str "" → pyLower (pyStr val) ≠ "nan" →
        (∀ y m d, val ≠ CellValue.dt y m d) → clean_value val = pyStrip (pyStr val)) := by
  refine ⟨fun h => by simp [clean_value, h], ?_, ?_⟩
  · rintro y m d rfl
    rw [clean_value, if_neg]
    rintro (h | h | h)
    · exact CellValue.noConfusion h
    · exact CellValue.noConfusion h
    · exact dt_not_nan_form y m d h
  · intro h1 h2 h3 h4
    cases val with
    | nan => exact absurd rfl h1
    | dt y m d => exact absurd rfl (h4 y m d)
    | str s =>
        rw [clean_value, if_neg]
        · rintro (h | h | h)
          · exact CellValue.noConfusion h
          · exact h2 h
          · exact h3 h
        · exact fun y m d h => CellValue.noConfusion h
    | intv n =>
        rw [clean_value, if_neg]
        · rintro (h | h | h)
          · exact CellValue.noConfusion h
          · exact CellValue.noConfusion h
          · exact h3 h
        · exact fun y m d h => CellValue.noConfusion h

/-- Closed witness for C7: a blank cell, the literal string "NaN", a date
and a padded plain string, each evaluated concretely. -/
theorem C7_clean_value_cases_witness :
    clean_value CellValue.nan = "-"
    ∧ clean_value (CellValue.str "NaN") = "-"
    ∧ clean_value (CellValue.dt 2024 3 7) = "2024-03-07"
    ∧ clean_value (CellValue.str "  hello ") = "hello" := by
  refine ⟨(C7_clean_value_cases CellValue.nan).1 (Or.inl rfl), ?_, ?_, ?_⟩
  · exact (C7_clean_value_cases (CellValue.str "NaN")).1 (Or.inr (Or.inr (by decide)))
  · exact ((C7_clean_value_cases (CellValue.dt 2024 3 7)).2.1 2024 3 7 rfl).trans (by decide)
  · exact ((C7_clean_value_cases (CellValue.str "  hello ")).2.2 (by decide) (by decide)
      (by decide) (by intro y m d h; cases h)).trans (by decide)

/-- C3: for every sheet name, if the sheet is absent both readers return
their empty shape with no error recorded; if reading the sheet raises, the
exception is caught and converted to one appended "Error parsing ..."
string and the empty shape is returned.  Neither reader propagates an
exception: both are total Lean functions whose only failure signal is the
errors list. -/
theorem C3_reader_fault_isolation (doc : XlsDoc) (name : String)
    (key_column value_column : Nat) (skip : List String) (errors : List String) :
    (findSheet doc name = none →
      parseKeyValueSheet doc name key_column value_column skip errors = ([], errors)
      ∧ parseTabularSheet doc name errors = ([], errors))
    ∧ (∀ msg, findSheet doc name = some (SheetData.broken msg) →
      parseKeyValueSheet doc name key_column value_column skip errors
        = ([], errors ++ ["Error parsing " ++ name ++ ": " ++ msg])
      ∧ parseTabularSheet doc name errors
        = ([], errors ++ ["Error parsing " ++ name ++ ": " ++ msg])) := by
  constructor
  · intro h
    constructor
    · rw [parseKeyValueSheet, h]
    · rw [parseTabularSheet, h]
  · intro msg h
    constructor
    · rw [parseKeyValueSheet, h]
    · rw [parseTabularSheet, h]

/-- Closed witness for C3: a workbook holding one broken sheet, probed at
the broken sheet and at an absent one. -/
theorem C3_reader_fault_isolation_witness :
    (parseKeyValueSheet (XlsDoc.mk [("Bad Sheet", SheetData.broken "boom")])
        "Missing" 0 1 defaultSkipHeaders ["e0"] = ([], ["e0"]))
    ∧ (parseTabularSheet (XlsDoc.mk [("Bad Sheet", SheetData.broken "boom")])
        "Bad Sheet" ["e0"]
        = ([], ["e0", "Error parsing Bad Sheet: boom"])) :=
  ⟨((C3_reader_fault_isolation (XlsDoc.mk [("Bad Sheet", SheetData.broken "boom")])
      "Missing" 0 1 defaultSkipHeaders ["e0"]).1 (by decide)).1,
   by
    have h := ((C3_reader_fault_isolation (XlsDoc.mk [("Bad Sheet", SheetData.broken "boom")])
      "Bad Sheet" 0 1 defaultSkipHeaders ["e0"]).2 "boom" (by decide)).2
    rw [h]
    rfl⟩

theorem recordOfRow_keys (header : List CellValue) :
    ∀ row, (recordOfRow header row).map Prod.fst = header.map pyStr := by
  induction header with
  | nil => intro row; rfl
  | cons h hs ih => intro row; simp [recordOfRow, ih]

theorem recordOfRow_blank (header : List CellValue) :
    ∀ row, (∀ c ∈ row, c = CellValue.nan) →
      ∀ kv ∈ recordOfRow header row, kv.2 = JVal.s "-" := by
  induction header with
  | nil => intro row _ kv hkv; cases hkv
  | cons h hs ih =>
      intro row hrow kv hkv
      rw [recordOfRow] at hkv
      rcases List.mem_cons.mp hkv with h1 | h1
      · subst h1
        have hhead : row.headD CellValue.nan = CellValue.nan := by
          cases row with
          | nil => rfl
          | cons c cs => exact hrow c (List.mem_cons_self c cs)
        show JVal.s (clean_value (row.headD CellValue.nan)) = JVal.s "-"
        rw [hhead]
        rfl
      · exact ih row.tail (fun c hc => hrow c (List.mem_of_mem_tail hc)) kv h1

/-- C10 (implicit): for a present, readable sheet, `parse_tabular_sheet`
returns exactly one record per data row beneath the header, in row order,
each record keyed by the header labels with every cell passed through
`clean_value`; an entirely blank (all-NaN) data row is not skipped — it
becomes a record whose every value is "-" and is counted in the returned
list's length. -/
theorem C10_tabular_row_records (doc : XlsDoc) (name : String)
    (errors : List String) (header : List CellValue) (data : List (List CellValue))
    (h : findSheet doc name = some (SheetData.grid (header :: data))) :
    (parseTabularSheet doc name errors).2 = errors
    ∧ (parseTabularSheet doc name errors).1.length = data.length
    ∧ (∀ i : Nat, (parseTabularSheet doc name errors).1[i]?
        = (data[i]?).map (recordOfRow header))
    ∧ (∀ row, (recordOfRow header row).map Prod.fst = header.map pyStr)
    ∧ (∀ row ∈ data, (∀ c ∈ row, c = CellValue.nan) →
        ∀ kv ∈ recordOfRow header row, kv.2 = JVal.s "-") := by
  refine ⟨?_, ?_, ?_, recordOfRow_keys header, ?_⟩
  · rw [parseTabularSheet, h]
  · rw [parseTabularSheet, h]; exact List.length_map data _
  · intro i
    rw [parseTabularSheet, h]
    show (List.map (recordOfRow header) data)[i]? = (data[i]?).map (recordOfRow header)
    exact List.getElem?_map (recordOfRow header) data i
  · intro row _ hblank
    exact recordOfRow_blank header row hblank

/-- Closed witness for C10: a two-column sheet with one filled row and one
all-blank row; the blank row becomes a record of dashes and is counted. -/
theorem C10_tabular_row_records_witness :
    (parseTabularSheet
        (XlsDoc.mk [("User Story",
          SheetData.grid [[CellValue.str "Story", CellValue.str "Points"],
            [CellValue.str "Login", CellValue.intv 3],
            [CellValue.nan, CellValue.nan]])])
        "User Story" []).1.length = 2
    ∧ (parseTabularSheet
        (XlsDoc.mk [("User Story",
          SheetData.grid [[CellValue.str "Story", CellValue.str "Points"],
            [CellValue.str "Login", CellValue.intv 3],
            [CellValue.nan, CellValue.nan]])])
        "User Story" []).1[1]?
      = some [("Story", JVal.s "-"), ("Points", JVal.s "-")] := by
  have h := C10_tabular_row_records
    (XlsDoc.mk [("User Story",
      SheetData.grid [[CellValue.str "Story", CellValue.str "Points"],
        [CellValue.str "Login", CellValue.intv 3],
        [CellValue.nan, CellValue.nan]])])
    "User Story" [] [CellValue.str "Story", CellValue.str "Points"]
    [[CellValue.str "Login", CellValue.intv 3], [CellValue.nan, CellValue.nan]]
    (by decide)
  refine ⟨h.2.1, ?_⟩
  rw [h.2.2.1 1]
  decide

/-- C8: duration strings are mapped to integer days by unit keyword, the
units tested in the source's order (week, then day, then month): a string
containing "week" yields the first number times 7, one containing "day"
(and no "week") yields the number as-is, one containing "month" (and
neither earlier unit) yields the number times 30, and any unparsable
string — no recognized unit, or no number — yields 0; in particular
"3 weeks" gives 21, "10 days" gives 10, "2 months" gives 60 and "unknown"
gives 0. -/
theorem C8_duration_parsing :
    (∀ s, strContains (pyLower s) "week" = true →
      parse_duration_to_days s = (firstNumber (pyLower s)).getD 0 * 7)
    ∧ (∀ s, strContains (pyLower s) "week" = false →
        strContains (pyLower s) "day" = true →
      parse_duration_to_days s = (firstNumber (pyLower s)).getD 0)
    ∧ (∀ s, strContains (pyLower s) "week" = false →
        strContains (pyLower s) "day" = false →
        strContains (pyLower s) "month" = true →
      parse_duration_to_days s = (firstNumber (pyLower s)).getD 0 * 30)
    ∧ (∀ s, strContains (pyLower s) "week" = false →
        strContains (pyLower s) "day" = false →
        strContains (pyLower s) "month" = false →
      parse_duration_to_days s = 0)
    ∧ (∀ s, firstNumber (pyLower s) = none → parse_duration_to_days s = 0)
    ∧ parse_duration_to_days "3 weeks" = 21
    ∧ parse_duration_to_days "10 days" = 10
    ∧ parse_duration_to_days "2 months" = 60
    ∧ parse_duration_to_days "unknown" = 0 := by
  refine ⟨?_, ?_, ?_, ?_, ?_, by decide, by decide, by decide, by decide⟩
  · intro s hw
    rw [parse_duration_to_days]
    simp only [hw, if_true]
    cases firstNumber (pyLower s) <;> simp
  · intro s hw hd
    rw [parse_duration_to_days]
    simp only [hw, hd, Bool.false_eq_true, if_false, if_true]
    cases firstNumber (pyLower s) <;> simp
  · intro s hw hd hm
    rw [parse_duration_to_days]
    simp only [hw, hd, hm, Bool.false_eq_true, if_false, if_true]
    cases firstNumber (pyLower s) <;> simp
  · intro s hw hd hm
    rw [parse_duration_to_days]
    simp [hw, hd, hm]
  · intro s hn
    rw [parse_duration_to_days]
    simp only [hn]
    split <;> simp [hn]

/-- Closed witness for C8: the general unit clauses applied at concrete
strings. -/
theorem C8_duration_parsing_witness :
    parse_duration_to_days "5 weeks" = 35
    ∧ parse_duration_to_days "7 days" = 7
    ∧ parse_duration_to_days "4 months" = 120
    ∧ parse_duration_to_days "soon" = 0 := by
  refine ⟨?_, ?_, ?_, ?_⟩
  · rw [C8_duration_parsing.1 "5 weeks" (by decide)]; decide
  · rw [C8_duration_parsing.2.1 "7 days" (by decide) (by decide)]; decide
  · rw [C8_duration_parsing.2.2.1 "4 months" (by decide) (by decide) (by decide)]; decide
  · exact C8_duration_parsing.2.2.2.1 "soon" (by decide) (by decide) (by decide)

/-- A variant none of whose expected sheet names occur in the workbook
scores 0. -/
theorem templateScore_no_match (k : TemplateKind) (names : List String)
    (h : ∀ s ∈ getTemplateSheets k, s ∉ names) : templateScore k names = 0 := by
  rw [templateScore]
  have h0 : (getTemplateSheets k).filter (fun s => decide (s ∈ names)) = [] := by
    rw [List.filter_eq_nil_iff]
    intro a ha
    simpa using h a ha
  simp [h0]

/-- C1 (code bug evidence): the claim — and the source's own comments
("Keep BA as fallback", "Lowest priority - fallback parser") — say a
document whose sheet names match no template falls back to "BA"; but all
three scores are then 0 and the stable descending sort keeps registration
order, so the code returns "UIUX", the first registered variant.  The
unconditional fallback to "BA" when opening the bytes fails does hold. -/
theorem C1_fallback_bug :
    detectTemplateType (Except.error "not a zip file") = "BA"
    ∧ detectTemplateType (Except.ok ["Random Sheet"]) = "UIUX"
    ∧ "UIUX" ≠ "BA" := by
  refine ⟨rfl, ?_, by decide⟩
  have hU := templateScore_no_match TemplateKind.UIUX ["Random Sheet"] (by decide)
  have hE := templateScore_no_match TemplateKind.ENGINEER ["Random Sheet"] (by decide)
  have hB := templateScore_no_match TemplateKind.BA ["Random Sheet"] (by decide)
  show getTemplateType
    (pickBest (parserRegistry.map (fun k => (k, templateScore k ["Random Sheet"])))).1 = "UIUX"
  simp only [parserRegistry, List.map_cons, List.map_nil, hU, hE, hB]
  simp [pickBest, getTemplateType]

/-- C9: `create_parser` with an explicit template type not among "UIUX",
"ENGINEER", "BA" raises an "Unknown template type" error — never a silent
fallback — while a known explicit tag instantiates exactly that variant,
independent of the document (so automatic detection plays no part). -/
theorem C9_create_parser_explicit (t : String) (opened : Except String (List String)) :
    (t ≠ "UIUX" → t ≠ "ENGINEER" → t ≠ "BA" →
      createParser opened (some t) = Except.error ("Unknown template type: " ++ t))
    ∧ (∀ k, getParserClass t = some k →
        createParser opened (some t) = Except.ok k
        ∧ ∀ opened₂, createParser opened (some t) = createParser opened₂ (some t)) := by
  constructor
  · intro h1 h2 h3
    rw [createParser]
    have hcls : getParserClass t = none := by
      rw [getParserClass, if_neg h1, if_neg h2, if_neg h3]
    rw [hcls]
  · intro k hk
    constructor
    · rw [createParser, hk]
    · intro opened₂
      rw [createParser, createParser]

/-- Closed witness for C9: the unknown tag "QA" errors; the known tag
"ENGINEER" resolves to the Engineer variant on two different documents. -/
theorem C9_create_parser_explicit_witness :
    createParser (Except.ok ["Project Info"]) (some "QA")
      = Except.error "Unknown template type: QA"
    ∧ createParser (Except.ok ["Project Info"]) (some "ENGINEER")
      = Except.ok TemplateKind.ENGINEER
    ∧ createParser (Except.ok ["Project Info"]) (some "ENGINEER")
      = createParser (Except.error "bad bytes") (some "ENGINEER") := by
  refine ⟨?_, ?_, ?_⟩
  · have h := (C9_create_parser_explicit "QA" (Except.ok ["Project Info"])).1
      (by decide) (by decide) (by decide)
    rw [h]
    rfl
  · exact ((C9_create_parser_explicit "ENGINEER" (Except.ok ["Project Info"])).2
      TemplateKind.ENGINEER (by decide)).1
  · exact (((C9_create_parser_explicit "ENGINEER" (Except.ok ["Project Info"])).2
      TemplateKind.ENGINEER (by decide)).2 (Except.error "bad bytes"))

theorem removeDuplicatesAux_sublist (seen : List (Nat × String)) :
    ∀ l : List ImgRec, (removeDuplicatesAux seen l).Sublist l := by
  intro l
  induction l generalizing seen with
  | nil => exact List.Sublist.refl []
  | cons img rest ih =>
      rw [removeDuplicatesAux]
      by_cases h : dedupKey img ∈ seen
      · simp only [h, if_true]
        exact (ih seen).cons img
      · simp only [h, if_false]
        exact (ih (dedupKey img :: seen)).cons₂ img

theorem removeDuplicatesAux_keys (l : List ImgRec) :
    ∀ seen, ((removeDuplicatesAux seen l).map dedupKey).Nodup
      ∧ ∀ k ∈ (removeDuplicatesAux seen l).map dedupKey, k ∉ seen := by
  induction l with
  | nil => intro seen; exact ⟨List.nodup_nil, by intro k hk; cases hk⟩
  | cons img rest ih =>
      intro seen
      rw [removeDuplicatesAux]
      by_cases h : dedupKey img ∈ seen
      · simp only [h, if_true]
        exact ih seen
      · simp only [h, if_false, List.map_cons, List.nodup_cons]
        refine ⟨⟨?_, (ih (dedupKey img :: seen)).1⟩, ?_⟩
        · intro hmem
          exact ((ih (dedupKey img :: seen)).2 (dedupKey img) hmem)
            (List.mem_cons_self _ _)
        · intro k hk
          rcases List.mem_cons.mp hk with h1 | h1
          · subst h1; exact h
          · intro hks
            exact ((ih (dedupKey img :: seen)).2 k h1) (List.mem_cons_of_mem _ hks)

theorem removeDuplicatesAux_complete (l : List ImgRec) :
    ∀ seen, ∀ i ∈ l, dedupKey i ∈ seen
      ∨ ∃ j ∈ removeDuplicatesAux seen l, dedupKey j = dedupKey i := by
  induction l with
  | nil => intro seen i hi; cases hi
  | cons img rest ih =>
      intro seen i hi
      rw [removeDuplicatesAux]
      by_cases h : dedupKey img ∈ seen
      · simp only [h, if_true]
        rcases List.mem_cons.mp hi with h1 | h1
        · subst h1; exact Or.inl h
        · exact ih seen i h1
      · simp only [h, if_false]
        rcases List.mem_cons.mp hi with h1 | h1
        · subst h1
          exact Or.inr ⟨i, List.mem_cons_self _ _, rfl⟩
        · rcases ih (dedupKey img :: seen) i h1 with h2 | ⟨j, hj, hjk⟩
          · rcases List.mem_cons.mp h2 with h3 | h3
            · exact Or.inr ⟨img, List.mem_cons_self _ _, h3.symm⟩
            · exact Or.inl h3
          · exact Or.inr ⟨j, List.mem_cons_of_mem _ hj, hjk⟩

theorem removeDuplicatesAux_first (l : List ImgRec) :
    ∀ seen, ∀ i ∈ removeDuplicatesAux seen l,
      dedupKey i ∉ seen
      ∧ l.find? (fun j => dedupKey j == dedupKey i) = some i := by
  induction l with
  | nil => intro seen i hi; cases hi
  | cons img rest ih =>
      intro seen i hi
      rw [removeDuplicatesAux] at hi
      by_cases h : dedupKey img ∈ seen
      · simp only [h, if_true] at hi
        have h1 := ih seen i hi
        have hne : dedupKey img ≠ dedupKey i := by
          intro he; exact h1.1 (he ▸ h)
        refine ⟨h1.1, ?_⟩
        rw [List.find?_cons_of_neg, h1.2]
        simp [hne]
      · simp only [h, if_false] at hi
        rcases List.mem_cons.mp hi with h1 | h1
        · subst h1
          refine ⟨h, ?_⟩
          rw [List.find?_cons_of_pos]
          simp
        · have h2 := ih (dedupKey img :: seen) i h1
          have hne : dedupKey img ≠ dedupKey i := by
            intro he
            exact h2.1 (he ▸ List.mem_cons_self _ _)
          refine ⟨fun hs => h2.1 (List.mem_cons_of_mem _ hs), ?_⟩
          rw [List.find?_cons_of_neg, h2.2]
          simp [hne]

theorem nodup_map_filter_key_le (f : ImgRec → Nat × String) :
    ∀ l : List ImgRec, (l.map f).Nodup →
      ∀ k, (l.filter (fun j => f j == k)).length ≤ 1 := by
  intro l
  induction l with
  | nil => intro _ k; simp
  | cons a t ih =>
      intro hnd k
      rw [List.map_cons, List.nodup_cons] at hnd
      by_cases h : (f a == k) = true
      · rw [List.filter_cons, if_pos h]
        have ht : t.filter (fun j => f j == k) = [] := by
          rw [List.filter_eq_nil_iff]
          intro b hb hfb
          apply hnd.1
          have : f b = k := by simpa using hfb
          have hak : f a = k := by simpa using h
          rw [← hak] at this
          exact this ▸ List.mem_map_of_mem f hb
        rw [ht]
        exact Nat.le_refl 1
      · rw [List.filter_cons, if_neg h]
        exact ih hnd.2 k

set_option maxRecDepth 100000 in
/-- C4: `_remove_duplicates` returns the subsequence keeping only the
first occurrence of each `(file_size, image_type)` pair — it is a sublist
of its input, its keys are pairwise distinct (so the merged output of the
two passes holds at most one image per key), every input key is still
represented, each survivor is the first input element bearing its key —
and concretely, two passes each contributing an image of 1024 bytes
classified "diagrams" merge to exactly one such image. -/
theorem C4_remove_duplicates_first_occurrence :
    (∀ l : List ImgRec, (remove_duplicates l).Sublist l)
    ∧ (∀ l : List ImgRec, ((remove_duplicates l).map dedupKey).Nodup)
    ∧ (∀ l : List ImgRec, ∀ i ∈ l, ∃ j ∈ remove_duplicates l, dedupKey j = dedupKey i)
    ∧ (∀ l : List ImgRec, ∀ i ∈ remove_duplicates l,
        l.find? (fun j => dedupKey j == dedupKey i) = some i)
    ∧ (∀ (l : List ImgRec) (k : Nat × String),
        ((remove_duplicates l).filter (fun j => dedupKey j == k)).length ≤ 1)
    ∧ ((extractImagesFromExcel "b" "d" (fun n => toString n) (fun _ => none)
          [SheetImage.mk "Flow Diagrams" none (List.replicate 1024 0)]
          [ZipEntry.mk "xl/media/diagram2.png" (List.replicate 1024 1)]).filter
        (fun i => dedupKey i == (1024, "diagrams"))).length = 1 := by
  refine ⟨fun l => removeDuplicatesAux_sublist [] l,
    fun l => (removeDuplicatesAux_keys l []).1, ?_, ?_, ?_, by decide⟩
  · intro l i hi
    rcases removeDuplicatesAux_complete l [] i hi with h | h
    · cases h
    · exact h
  · intro l i hi
    exact (removeDuplicatesAux_first l [] i hi).2
  · intro l k
    exact nodup_map_filter_key_le dedupKey (remove_duplicates l)
      (removeDuplicatesAux_keys l []).1 k

/-- Closed witness for C4: two distinct images with the same key; the
survivor set still covers the second's key, and the first image is the
first occurrence found for its key. -/
theorem C4_remove_duplicates_first_occurrence_witness :
    (∃ j ∈ remove_duplicates
        [ImgRec.mk "diagrams" "S1" none "a.png" "p1" 10 none none none "openpyxl",
         ImgRec.mk "diagrams" "S2" none "b.png" "p2" 10 none none none "zip_extraction"],
      dedupKey j = dedupKey
        (ImgRec.mk "diagrams" "S2" none "b.png" "p2" 10 none none none "zip_extraction"))
    ∧ [ImgRec.mk "diagrams" "S1" none "a.png" "p1" 10 none none none "openpyxl",
       ImgRec.mk "diagrams" "S2" none "b.png" "p2" 10 none none none "zip_extraction"].find?
        (fun j => dedupKey j == dedupKey
          (ImgRec.mk "diagrams" "S1" none "a.png" "p1" 10 none none none "openpyxl"))
      = some (ImgRec.mk "diagrams" "S1" none "a.png" "p1" 10 none none none "openpyxl") :=
  ⟨C4_remove_duplicates_first_occurrence.2.2.1 _
      (ImgRec.mk "diagrams" "S2" none "b.png" "p2" 10 none none none "zip_extraction")
      (by decide),
   C4_remove_duplicates_first_occurrence.2.2.2.1 _
      (ImgRec.mk "diagrams" "S1" none "a.png" "p1" 10 none none none "openpyxl")
      (by decide)⟩

/-- C6 counterexample: the ZIP pass stores images under the archive
entry's base name, not a randomly generated one, so two media entries with
the same base name and classification (here both "design.../img1.png",
classified mockups) but different byte sizes survive deduplication with
the SAME storage path — storage paths are not pairwise distinct within one
document's result, and the file names visibly are the archive names. -/
theorem C6_zip_path_collision_counterexample :
    ¬ ((extractImagesFromExcel "b" "d" (fun n => toString n) (fun _ => none) []
        [ZipEntry.mk "xl/media/design/img1.png" [0, 1],
         ZipEntry.mk "xl/media/designs2/img1.png" [0, 1, 2]]).map ImgRec.file_path).Nodup
    ∧ (extractImagesFromExcel "b" "d" (fun n => toString n) (fun _ => none) []
        [ZipEntry.mk "xl/media/design/img1.png" [0, 1],
         ZipEntry.mk "xl/media/designs2/img1.png" [0, 1, 2]]).map ImgRec.file_name
      = ["img1.png", "img1.png"] := by decide

theorem string_eq_iff_data (s t : String) : s = t ↔ s.data = t.data :=
  ⟨congrArg String.data, fun h => by cases s; cases t; exact congrArg String.mk h⟩

theorem data_length (s : String) : s.data.length = s.length := rfl

theorem firstChar_append (x y : String) :
    firstChar (x ++ y) = (firstChar x).or (firstChar y) := by
  rw [firstChar, firstChar, firstChar, String.data_append]
  exact List.head?_append

theorem lastChar_append (x y : String) :
    lastChar (x ++ y) = (lastChar y).or (lastChar x) := by
  rw [lastChar, lastChar, lastChar, String.data_append]
  exact List.getLast?_append

theorem lastChar_ne_empty (y : String) (hy : y ≠ "") : ∃ c, lastChar y = some c := by
  cases hc : lastChar y with
  | some c => exact ⟨c, rfl⟩
  | none =>
      rw [lastChar] at hc
      exact absurd ((string_eq_iff_data y "").mpr (List.getLast?_eq_none_iff.mp hc)) hy

theorem lastChar_append_ne (x y : String) (hy : y ≠ "") :
    lastChar (x ++ y) = lastChar y := by
  rw [lastChar_append]
  rcases lastChar_ne_empty y hy with ⟨c, hc⟩
  rw [hc]
  rfl

theorem append_ne_empty_right (x y : String) (hy : y ≠ "") : x ++ y ≠ "" := by
  intro h
  have hd := (string_eq_iff_data _ _).mp h
  rw [String.data_append] at hd
  exact hy ((string_eq_iff_data y "").mpr (List.append_eq_nil.mp hd).2)

theorem pyJoin2_normal (a b : String) (hb : firstChar b ≠ some '/')
    (ha1 : a ≠ "") (ha2 : lastChar a ≠ some '/') : pyJoin2 a b = a ++ "/" ++ b := by
  rw [pyJoin2, if_neg hb, if_neg]
  rintro (h | h)
  · exact ha1 h
  · exact ha2 h

theorem pyJoin4_normal (b d t n : String)
    (hb1 : b ≠ "") (hb2 : lastChar b ≠ some '/')
    (hd0 : firstChar d ≠ some '/') (hd1 : d ≠ "") (hd2 : lastChar d ≠ some '/')
    (ht0 : firstChar t ≠ some '/') (ht1 : t ≠ "") (ht2 : lastChar t ≠ some '/')
    (hn0 : firstChar n ≠ some '/') :
    pyJoin4 b d t n = b ++ "/" ++ d ++ "/" ++ t ++ "/" ++ n := by
  have h1 : pyJoin2 b d = b ++ "/" ++ d := pyJoin2_normal b d hd0 hb1 hb2
  have h2 : pyJoin2 (pyJoin2 b d) t = b ++ "/" ++ d ++ "/" ++ t := by
    rw [h1]
    exact pyJoin2_normal _ t ht0
      (append_ne_empty_right _ d hd1)
      (by rw [lastChar_append_ne _ d hd1]; exact hd2)
  rw [pyJoin4, h2]
  exact pyJoin2_normal _ n hn0
    (append_ne_empty_right _ t ht1)
    (by rw [lastChar_append_ne _ t ht1]; exact ht2)

theorem determineImageType_mem (s : String) :
    determineImageType s ∈ ["mockups", "screenshots", "diagrams", "wireframes"] := by
  unfold determineImageType
  split
  · decide
  · split
    · decide
    · split
      · decide
      · decide

theorem determineImageTypeFromPath_mem (s : String) :
    determineImageTypeFromPath s ∈ ["mockups", "screenshots", "diagrams", "wireframes"] := by
  unfold determineImageTypeFromPath
  split
  · decide
  · split
    · decide
    · split
      · decide
      · decide

theorem typeStr_props (t : String)
    (h : t ∈ ["mockups", "screenshots", "diagrams", "wireframes"]) :
    t ≠ "" ∧ firstChar t ≠ some '/' ∧ lastChar t ≠ some '/' := by
  fin_cases h <;> refine ⟨by decide, by decide, by decide⟩

theorem getImageExtension_length (bs : List Nat) : (getImageExtension bs).length = 3 := by
  unfold getImageExtension
  split
  · rfl
  · split
    · rfl
    · split
      · rfl
      · split
        · rfl
        · rfl

theorem basenameS_firstChar (s : String) : firstChar (basenameS s) ≠ some '/' := by
  intro h
  rw [firstChar, basenameS] at h
  have hmem : '/' ∈ (s.data.reverse.takeWhile (fun c => c ≠ '/')).reverse :=
    List.mem_of_mem_head? (by rw [h]; exact rfl)
  have := List.mem_takeWhile_imp (List.mem_reverse.mp hmem)
  simp at this

/-- First character of a uuid-generated file name `u ++ "." ++ ext`. -/
theorem uuidName_firstChar (u e : String) (hu : firstChar u ≠ some '/') :
    firstChar (u ++ "." ++ e) ≠ some '/' := by
  rw [firstChar_append, firstChar_append]
  cases hc : firstChar u with
  | some c =>
      rw [Option.or]
      intro h
      exact hu (hc.trans h)
  | none =>
      rw [Option.or]
      intro h
      rw [show (firstChar ".").or (firstChar e) = some '.' from rfl] at h
      cases h

/-- The cancellation core: two normalized storage paths under the same
batch/document ids, with uuid parts of the fixed uuid4 length 36 and
extensions of length 3, are equal only if their uuid parts coincide. -/
theorem uuid_path_cancel (b d t1 t2 u1 u2 e1 e2 : String)
    (he1 : e1.length = 3) (he2 : e2.length = 3)
    (hu1 : u1.length = 36) (hu2 : u2.length = 36)
    (h : b ++ "/" ++ d ++ "/" ++ t1 ++ "/" ++ (u1 ++ "." ++ e1)
       = b ++ "/" ++ d ++ "/" ++ t2 ++ "/" ++ (u2 ++ "." ++ e2)) : u1 = u2 := by
  have hd := (string_eq_iff_data _ _).mp h
  have hslash : ("/" : String).data = ['/'] := rfl
  have hdot : ("." : String).data = ['.'] := rfl
  simp only [String.data_append, hslash, hdot, List.append_assoc] at hd
  have h1 := List.append_cancel_left hd
  have h2 := List.append_cancel_left h1
  have h3 := List.append_cancel_left h2
  have h4 := List.append_cancel_left h3
  have hlen : t1.data.length = t2.data.length := by
    have hl := congrArg List.length h4
    simp only [List.length_append, List.length_cons, List.length_nil] at hl
    rw [data_length t1, data_length t2, data_length u1, data_length u2,
        data_length e1, data_length e2] at hl
    rw [data_length t1, data_length t2]
    omega
  have h5 := (List.append_inj h4 hlen).2
  have h6 := List.append_cancel_left h5
  have hulen : u1.data.length = u2.data.length := by
    rw [data_length, data_length, hu1, hu2]
  have h7 := (List.append_inj h6 hulen).1
  exact (string_eq_iff_data u1 u2).mpr h7

theorem append_ne_empty_left (x y : String) (hx : x ≠ "") : x ++ y ≠ "" := by
  intro h
  have hd := (string_eq_iff_data _ _).mp h
  rw [String.data_append] at hd
  exact hx ((string_eq_iff_data x "").mpr (List.append_eq_nil.mp hd).1)

theorem append4_ne_empty (b d t n : String) (hb : b ≠ "") :
    b ++ "/" ++ d ++ "/" ++ t ++ "/" ++ n ≠ "" :=
  append_ne_empty_left _ _ (append_ne_empty_left _ _ (append_ne_empty_left _ _
    (append_ne_empty_left _ _ (append_ne_empty_left _ _ (append_ne_empty_left b "/" hb)))))

theorem processOpenpyxlImage_path (b d : String)
    (pil : List Nat → Option (Nat × Nat × Option String)) (u : String) (img : SheetImage)
    (hb1 : b ≠ "") (hb2 : lastChar b ≠ some '/')
    (hd0 : firstChar d ≠ some '/') (hd1 : d ≠ "") (hd2 : lastChar d ≠ some '/')
    (hu : firstChar u ≠ some '/') :
    (processOpenpyxlImage b d pil u img).file_path
      = b ++ "/" ++ d ++ "/" ++ determineImageType img.sheet_name ++ "/"
        ++ (u ++ "." ++ getImageExtension img.image_bytes) := by
  obtain ⟨ht1, ht0, ht2⟩ := typeStr_props _ (determineImageType_mem img.sheet_name)
  exact pyJoin4_normal b d _ _ hb1 hb2 hd0 hd1 hd2 ht0 ht1 ht2 (uuidName_firstChar u _ hu)

theorem processZipImage_path (b d : String)
    (pil : List Nat → Option (Nat × Nat × Option String)) (e : ZipEntry)
    (hb1 : b ≠ "") (hb2 : lastChar b ≠ some '/')
    (hd0 : firstChar d ≠ some '/') (hd1 : d ≠ "") (hd2 : lastChar d ≠ some '/') :
    (processZipImage b d pil e).file_path
      = b ++ "/" ++ d ++ "/" ++ determineImageTypeFromPath e.filename ++ "/"
        ++ basenameS e.filename := by
  obtain ⟨ht1, ht0, ht2⟩ := typeStr_props _ (determineImageTypeFromPath_mem e.filename)
  exact pyJoin4_normal b d _ _ hb1 hb2 hd0 hd1 hd2 ht0 ht1 ht2 (basenameS_firstChar e.filename)

theorem extractFrom_mem (b d : String) (g : Nat → String)
    (pil : List Nat → Option (Nat × Nat × Option String)) :
    ∀ (l : List SheetImage) (start : Nat) (r : ImgRec),
      r ∈ extractWithOpenpyxlFrom b d g pil start l →
      ∃ k img, start ≤ k ∧ k < start + l.length ∧ img ∈ l
        ∧ r = processOpenpyxlImage b d pil (g k) img := by
  intro l
  induction l with
  | nil => intro start r hr; cases hr
  | cons img rest ih =>
      intro start r hr
      rw [extractWithOpenpyxlFrom] at hr
      rcases List.mem_cons.mp hr with h1 | h1
      · refine ⟨start, img, Nat.le_refl _, ?_, List.mem_cons_self _ _, h1⟩
        rw [List.length_cons]
        omega
      · rcases ih (start + 1) r h1 with ⟨k, img2, hk1, hk2, hmem, heq⟩
        refine ⟨k, img2, by omega, ?_, List.mem_cons_of_mem _ hmem, heq⟩
        rw [List.length_cons]
        omega

theorem extractFrom_paths_nodup (b d : String) (g : Nat → String)
    (pil : List Nat → Option (Nat × Nat × Option String))
    (hb1 : b ≠ "") (hb2 : lastChar b ≠ some '/')
    (hd0 : firstChar d ≠ some '/') (hd1 : d ≠ "") (hd2 : lastChar d ≠ some '/') :
    ∀ (l : List SheetImage) (start N : Nat), start + l.length ≤ N →
      (∀ i, i < N → firstChar (g i) ≠ some '/' ∧ (g i).length = 36) →
      (∀ i, i < N → ∀ j, j < N → i ≠ j → g i ≠ g j) →
      ((extractWithOpenpyxlFrom b d g pil start l).map ImgRec.file_path).Nodup := by
  intro l
  induction l with
  | nil =>
      intro start N _ _ _
      rw [extractWithOpenpyxlFrom]
      exact List.nodup_nil
  | cons img rest ih =>
      intro start N hN hg hinj
      rw [List.length_cons] at hN
      rw [extractWithOpenpyxlFrom, List.map_cons, List.nodup_cons]
      constructor
      · intro hmem
        rcases List.mem_map.mp hmem with ⟨r, hr, hpath⟩
        rcases extractFrom_mem b d g pil rest (start + 1) r hr with
          ⟨k, img2, hk1, hk2, _, heq⟩
        have hkN : k < N := by omega
        have hsN : start < N := by omega
        have hpath1 := processOpenpyxlImage_path b d pil (g start) img
          hb1 hb2 hd0 hd1 hd2 (hg start hsN).1
        have hpath2 := processOpenpyxlImage_path b d pil (g k) img2
          hb1 hb2 hd0 hd1 hd2 (hg k hkN).1
        rw [heq] at hpath
        rw [hpath1, hpath2] at hpath
        have hgk := uuid_path_cancel b d _ _ (g k) (g start) _ _
          (getImageExtension_length img2.image_bytes)
          (getImageExtension_length img.image_bytes)
          (hg k hkN).2 (hg start hsN).2 hpath
        exact hinj k hkN start hsN (by omega) hgk
      · exact ih (start + 1) N (by omega) hg hinj

/-- C6 (amended): every produced `ExtractedImage` of either pass has a
non-empty relative storage path of the form
batch_id/document_id/classified_type/file_name.  The openpyxl pass names
files from the fresh uuid4 generator, so (with the generator injective
over the images of the document, which is uuid4's guarantee, and its
36-character canonical form) the openpyxl pass's storage paths are
pairwise distinct.  The ZIP pass instead reuses the archive entry's base
name, so its paths need not be distinct — the claim's "random unique
generation ... for ... the raw-archive pass alike" is refuted by the
counterexample theorem. -/
theorem C6_amended_storage_paths (b d : String) (g : Nat → String)
    (pil : List Nat → Option (Nat × Nat × Option String))
    (sheet_images : List SheetImage) (zip_entries : List ZipEntry)
    (hb1 : b ≠ "") (hb2 : lastChar b ≠ some '/')
    (hd0 : firstChar d ≠ some '/') (hd1 : d ≠ "") (hd2 : lastChar d ≠ some '/')
    (hg : ∀ i, i < sheet_images.length → firstChar (g i) ≠ some '/' ∧ (g i).length = 36)
    (hinj : ∀ i, i < sheet_images.length → ∀ j, j < sheet_images.length →
      i ≠ j → g i ≠ g j) :
    (∀ r ∈ extractWithOpenpyxl b d g pil sheet_images,
      r.file_path = b ++ "/" ++ d ++ "/" ++ r.image_type ++ "/" ++ r.file_name
      ∧ r.file_path ≠ "")
    ∧ (∀ r ∈ extractWithZip b d pil zip_entries,
      r.file_path = b ++ "/" ++ d ++ "/" ++ r.image_type ++ "/" ++ r.file_name
      ∧ r.file_path ≠ "")
    ∧ ((extractWithOpenpyxl b d g pil sheet_images).map ImgRec.file_path).Nodup := by
  refine ⟨?_, ?_, ?_⟩
  · intro r hr
    rcases extractFrom_mem b d g pil sheet_images 0 r hr with ⟨k, img, _, hk2, _, heq⟩
    have hkL : k < sheet_images.length := by omega
    subst heq
    constructor
    · exact processOpenpyxlImage_path b d pil (g k) img hb1 hb2 hd0 hd1 hd2 (hg k hkL).1
    · rw [processOpenpyxlImage_path b d pil (g k) img hb1 hb2 hd0 hd1 hd2 (hg k hkL).1]
      exact append4_ne_empty b d _ _ hb1
  · intro r hr
    rcases List.mem_map.mp hr with ⟨e, _, heq⟩
    subst heq
    constructor
    · exact processZipImage_path b d pil e hb1 hb2 hd0 hd1 hd2
    · rw [processZipImage_path b d pil e hb1 hb2 hd0 hd1 hd2]
      exact append4_ne_empty b d _ _ hb1
  · exact extractFrom_paths_nodup b d g pil hb1 hb2 hd0 hd1 hd2
      sheet_images 0 sheet_images.length (by omega) hg hinj

/-- Closed witness for the amended C6: two sheet images with distinct
36-character generated names give distinct storage paths, and a ZIP entry
lands at its batch/document/type/basename path. -/
theorem C6_amended_storage_paths_witness :
    ((extractWithOpenpyxl "b1" "d1"
        (fun i => if i = 0 then "aaaaaaaaaaaaaaaaaaaaaaaaaaaaaaaaaaaa" else "cccccccccccccccccccccccccccccccccccc") (fun _ => none)
        [SheetImage.mk "UI Mockups" none [], SheetImage.mk "Flow Chart" none [0]]).map
      ImgRec.file_path).Nodup
    ∧ (processZipImage "b1" "d1" (fun _ => none)
        (ZipEntry.mk "xl/media/diagram/logo.png" [1, 2])).file_path
      = "b1/d1/diagrams/logo.png" := by
  have h := C6_amended_storage_paths "b1" "d1"
    (fun i => if i = 0 then "aaaaaaaaaaaaaaaaaaaaaaaaaaaaaaaaaaaa" else "cccccccccccccccccccccccccccccccccccc") (fun _ => none)
    [SheetImage.mk "UI Mockups" none [], SheetImage.mk "Flow Chart" none [0]]
    [ZipEntry.mk "xl/media/diagram/logo.png" [1, 2]]
    (by decide) (by decide) (by decide) (by decide) (by decide)
    (by decide) (by decide)
  refine ⟨h.2.2, ?_⟩
  have h2 := (h.2.1 (processZipImage "b1" "d1" (fun _ => none)
      (ZipEntry.mk "xl/media/diagram/logo.png" [1, 2])) (by decide)).1
  rw [h2]
  decide

/-- C2: in every result of a parser's `process_file`, each `parsing_stats`
count equals the length of the corresponding list or mapping in the same
result: for BA `total_us`, `total_ac`, `total_bv`, `total_images`; for
Engineer `total_tech_stack`, `total_dev_phases`, `total_arch_docs`,
`total_images`; for UIUX `total_figma_links`, `total_design_assets`,
`total_design_decisions`, `total_images` and `assets_needing_upload`.
Each count is computed from the very list stored in the result, so the
invariant holds for every workbook, image list and id generator. -/
theorem C2_parsing_stats_counts (doc : XlsDoc) (imgs : List ImgRec)
    (idGen : Nat → String) :
    ((baProcessFile doc imgs idGen).metadata.parsing_stats.total_us
        = (baProcessFile doc imgs idGen).metadata.user_stories.length
      ∧ (baProcessFile doc imgs idGen).metadata.parsing_stats.total_ac
        = (baProcessFile doc imgs idGen).metadata.acceptance_criteria.length
      ∧ (baProcessFile doc imgs idGen).metadata.parsing_stats.total_bv
        = (baProcessFile doc imgs idGen).metadata.business_values.length
      ∧ (baProcessFile doc imgs idGen).metadata.parsing_stats.total_images
        = (baProcessFile doc imgs idGen).extracted_images.length)
    ∧ ((engProcessFile doc imgs idGen).metadata.parsing_stats.total_tech_stack
        = (engProcessFile doc imgs idGen).metadata.tech_stack.length
      ∧ (engProcessFile doc imgs idGen).metadata.parsing_stats.total_dev_phases
        = (engProcessFile doc imgs idGen).metadata.development_estimate.length
      ∧ (engProcessFile doc imgs idGen).metadata.parsing_stats.total_arch_docs
        = (engProcessFile doc imgs idGen).metadata.architecture_documents.length
      ∧ (engProcessFile doc imgs idGen).metadata.parsing_stats.total_images
        = (engProcessFile doc imgs idGen).extracted_images.length)
    ∧ ((uixProcessFile doc imgs idGen).metadata.parsing_stats.total_figma_links
        = (uixProcessFile doc imgs idGen).metadata.figma_links.length
      ∧ (uixProcessFile doc imgs idGen).metadata.parsing_stats.total_design_assets
        = (uixProcessFile doc imgs idGen).metadata.design_assets.length
      ∧ (uixProcessFile doc imgs idGen).metadata.parsing_stats.total_design_decisions
        = (uixProcessFile doc imgs idGen).metadata.design_decisions.length
      ∧ (uixProcessFile doc imgs idGen).metadata.parsing_stats.total_images
        = (uixProcessFile doc imgs idGen).extracted_images.length
      ∧ (uixProcessFile doc imgs idGen).metadata.parsing_stats.assets_needing_upload
        = (uixProcessFile doc imgs idGen).metadata.assets_requiring_separate_upload.length) :=
  ⟨⟨rfl, rfl, rfl, rfl⟩, ⟨rfl, rfl, rfl, rfl⟩, ⟨rfl, rfl, rfl, rfl, rfl⟩⟩

theorem parseKeyValueSheet_fst_indep (doc : XlsDoc) (n : String)
    (a b : Nat) (skip : List String) (e1 e2 : List String) :
    (parseKeyValueSheet doc n a b skip e1).1 = (parseKeyValueSheet doc n a b skip e2).1 := by
  rw [parseKeyValueSheet, parseKeyValueSheet]
  cases findSheet doc n with
  | none => rfl
  | some sd =>
      cases sd with
      | grid rows => rfl
      | broken m => rfl

theorem assocGet_map_self {α : Type} (k : String) (v dflt : α) :
    ∀ d : List (String × α), d.any (fun p => p.1 == k) = true →
      assocGet (d.map (fun p => if p.1 == k then (k, v) else p)) k dflt = v := by
  intro d
  induction d with
  | nil => intro h; cases h
  | cons p t ih =>
      intro h
      rw [List.map_cons]
      by_cases hp : (p.1 == k) = true
      · rw [if_pos hp, assocGet, List.find?_cons_of_pos]
        exact beq_self_eq_true k
      · rw [if_neg hp, assocGet, List.find?_cons_of_neg, ← assocGet]
        · apply ih
          rw [List.any_cons] at h
          simpa [hp] using h
        · exact fun hc => hp hc

theorem assocGet_append_single {α : Type} (k : String) (v dflt : α) :
    ∀ d : List (String × α), d.any (fun p => p.1 == k) = false →
      assocGet (d ++ [(k, v)]) k dflt = v := by
  intro d
  induction d with
  | nil =>
      intro _
      rw [List.nil_append, assocGet, List.find?_cons_of_pos]
      exact beq_self_eq_true k
  | cons p t ih =>
      intro h
      rw [List.any_cons] at h
      have hp : (p.1 == k) = false := by
        cases hq : (p.1 == k)
        · rfl
        · rw [hq] at h; cases h
      rw [List.cons_append, assocGet, List.find?_cons_of_neg, ← assocGet]
      · apply ih
        cases hq : t.any (fun p => p.1 == k)
        · rfl
        · rw [hq, hp] at h; cases h
      · exact fun hc => by rw [hp] at hc; cases hc

theorem assocGet_insert_self {α : Type} (d : List (String × α)) (k : String)
    (v dflt : α) : assocGet (assocInsert d k v) k dflt = v := by
  rw [assocInsert]
  by_cases h : d.any (fun p => p.1 == k) = true
  · rw [if_pos h]
    exact assocGet_map_self k v dflt d h
  · rw [if_neg h]
    have h2 : d.any (fun p => p.1 == k) = false := by
      cases hq : d.any (fun p => p.1 == k)
      · rfl
      · exact absurd hq h
    exact assocGet_append_single k v dflt d h2

theorem assocGet_map_of_ne {α : Type} (k' k : String) (v dflt : α)
    (hne : (k' == k) = false) :
    ∀ d : List (String × α),
      assocGet (d.map (fun p => if p.1 == k' then (k', v) else p)) k dflt
        = assocGet d k dflt := by
  intro d
  induction d with
  | nil => rfl
  | cons p t ih =>
      rw [List.map_cons]
      by_cases hp : (p.1 == k') = true
      · have hpk : (p.1 == k) = false := by
          rw [eq_of_beq hp]
          exact hne
        rw [if_pos hp, assocGet, List.find?_cons_of_neg, assocGet,
          List.find?_cons_of_neg]
        · exact ih
        · exact fun hc => by rw [hpk] at hc; cases hc
        · exact fun hc => by rw [show ((k', v).1 == k) = false from hne] at hc; cases hc
      · rw [if_neg hp]
        cases hq : (p.1 == k)
        · rw [assocGet, List.find?_cons_of_neg, assocGet, List.find?_cons_of_neg]
          · exact ih
          · exact fun hc => by rw [hq] at hc; cases hc
          · exact fun hc => by rw [hq] at hc; cases hc
        · simp only [assocGet, List.find?, hq]

theorem assocGet_append_single_of_ne {α : Type} (k' k : String) (v dflt : α)
    (hne : (k' == k) = false) :
    ∀ d : List (String × α), assocGet (d ++ [(k', v)]) k dflt = assocGet d k dflt := by
  intro d
  induction d with
  | nil =>
      rw [List.nil_append, assocGet, List.find?_cons_of_neg]
      · rfl
      · exact fun hc => by rw [show ((k', v).1 == k) = false from hne] at hc; cases hc
  | cons p t ih =>
      cases hq : (p.1 == k)
      · rw [List.cons_append, assocGet, List.find?_cons_of_neg, assocGet,
          List.find?_cons_of_neg]
        · exact ih
        · exact fun hc => by rw [hq] at hc; cases hc
        · exact fun hc => by rw [hq] at hc; cases hc
      · simp only [List.cons_append, assocGet, List.find?, hq]

theorem assocGet_insert_of_ne {α : Type} (d : List (String × α)) (k' k : String)
    (v dflt : α) (hne : (k' == k) = false) :
    assocGet (assocInsert d k' v) k dflt = assocGet d k dflt := by
  rw [assocInsert]
  by_cases h : d.any (fun p => p.1 == k') = true
  · rw [if_pos h]
    exact assocGet_map_of_ne k' k v dflt hne d
  · rw [if_neg h]
    exact assocGet_append_single_of_ne k' k v dflt hne d

theorem assocGet_not_has {α : Type} (k : String) (dflt : α) :
    ∀ d : List (String × α), assocHas d k = false → assocGet d k dflt = dflt := by
  intro d
  induction d with
  | nil => intro _; rfl
  | cons p t ih =>
      intro h
      rw [assocHas, List.any_cons] at h
      have hp : (p.1 == k) = false := by
        cases hq : (p.1 == k)
        · rfl
        · rw [hq] at h; cases h
      rw [assocGet, List.find?_cons_of_neg, ← assocGet]
      · apply ih
        rw [assocHas]
        cases hq : t.any (fun p => p.1 == k)
        · rfl
        · rw [hq, hp] at h; cases h
      · exact fun hc => by rw [hp] at hc; cases hc

theorem engApproval_status_eq (doc : XlsDoc) (e : List String) :
    assocGet (engParseApproval doc e).1 "approval_status" "PENDING"
      = (if (parseKeyValueSheet doc "Approval" 0 1 defaultSkipHeaders []).1 = []
         then "PENDING"
         else pyUpper (assocGet
            (parseKeyValueSheet doc "Approval" 0 1 defaultSkipHeaders []).1
            "status" "PENDING")) := by
  have hind := parseKeyValueSheet_fst_indep doc "Approval" 0 1 defaultSkipHeaders e []
  simp only [engParseApproval]
  split
  · rename_i h
    rw [assocGet_insert_of_ne _ _ _ _ _ (by decide), assocGet_insert_self]
    rw [hind] at h
    rw [if_neg h, hind]
  · rename_i h
    have h0 : (parseKeyValueSheet doc "Approval" 0 1 defaultSkipHeaders e).1 = [] :=
      not_not.mp h
    rw [h0, if_pos (hind ▸ h0)]
    rfl

theorem uixApproval_status_eq (doc : XlsDoc) (e : List String) :
    assocGet (uixParseApproval doc e).1 "approval_status" "PENDING"
      = (if (parseKeyValueSheet doc "Approval" 0 1 defaultSkipHeaders []).1 = []
         then "PENDING"
         else pyUpper (assocGet
            (parseKeyValueSheet doc "Approval" 0 1 defaultSkipHeaders []).1
            "status" "PENDING")) := by
  have hind := parseKeyValueSheet_fst_indep doc "Approval" 0 1 defaultSkipHeaders e []
  simp only [uixParseApproval]
  split
  · rename_i h
    rw [assocGet_insert_of_ne _ _ _ _ _ (by decide), assocGet_insert_self]
    rw [hind] at h
    rw [if_neg h, hind]
  · rename_i h
    have h0 : (parseKeyValueSheet doc "Approval" 0 1 defaultSkipHeaders e).1 = [] :=
      not_not.mp h
    rw [h0, if_pos (hind ▸ h0)]
    rfl

/-- C5 counterexample: an "Approval" sheet whose status field is "Maybe".
BA would normalize this to PENDING, but the UIUX and Engineer
`parse_approval` merely upper-case the value, so both results report the
approval status "MAYBE", which is none of APPROVED/REJECTED/PENDING. -/
theorem C5_status_not_normalized_counterexample :
    ((engProcessFile
        (XlsDoc.mk [("Approval",
          SheetData.grid [[CellValue.str "Status", CellValue.str "Maybe"]])])
        [] (fun _ => "")).metadata.approval_status = "MAYBE"
      ∧ ("MAYBE" ∈ (["APPROVED", "REJECTED", "PENDING"] : List String)) = False)
    ∧ (uixProcessFile
        (XlsDoc.mk [("Approval",
          SheetData.grid [[CellValue.str "Status", CellValue.str "Maybe"]])])
        [] (fun _ => "")).metadata.approval_status = "MAYBE" := by
  refine ⟨⟨by decide, ?_⟩, by decide⟩
  simp

/-- C5 (amended): for the UIUX and Engineer parsers the derived
`approval_status` defaults to PENDING when the Approval mapping is empty
or lacks a `status` field, but — unlike BA — an unrecognized status value
is passed through upper-cased rather than normalized, so it is the
upper-cased `status` field whenever the mapping is non-empty. -/
theorem C5_amended_approval_status (doc : XlsDoc) (imgs : List ImgRec)
    (idGen : Nat → String) :
    ((engProcessFile doc imgs idGen).metadata.approval_status
      = (if (parseKeyValueSheet doc "Approval" 0 1 defaultSkipHeaders []).1 = []
         then "PENDING"
         else pyUpper (assocGet
            (parseKeyValueSheet doc "Approval" 0 1 defaultSkipHeaders []).1
            "status" "PENDING")))
    ∧ ((uixProcessFile doc imgs idGen).metadata.approval_status
      = (if (parseKeyValueSheet doc "Approval" 0 1 defaultSkipHeaders []).1 = []
         then "PENDING"
         else pyUpper (assocGet
            (parseKeyValueSheet doc "Approval" 0 1 defaultSkipHeaders []).1
            "status" "PENDING")))
    ∧ ((parseKeyValueSheet doc "Approval" 0 1 defaultSkipHeaders []).1 = []
        ∨ assocHas (parseKeyValueSheet doc "Approval" 0 1 defaultSkipHeaders []).1
            "status" = false →
      (engProcessFile doc imgs idGen).metadata.approval_status = "PENDING"
      ∧ (uixProcessFile doc imgs idGen).metadata.approval_status = "PENDING") := by
  have heng : (engProcessFile doc imgs idGen).metadata.approval_status
      = (if (parseKeyValueSheet doc "Approval" 0 1 defaultSkipHeaders []).1 = []
         then "PENDING"
         else pyUpper (assocGet
            (parseKeyValueSheet doc "Approval" 0 1 defaultSkipHeaders []).1
            "status" "PENDING")) := engApproval_status_eq doc _
  have huix : (uixProcessFile doc imgs idGen).metadata.approval_status
      = (if (parseKeyValueSheet doc "Approval" 0 1 defaultSkipHeaders []).1 = []
         then "PENDING"
         else pyUpper (assocGet
            (parseKeyValueSheet doc "Approval" 0 1 defaultSkipHeaders []).1
            "status" "PENDING")) := uixApproval_status_eq doc _
  refine ⟨heng, huix, ?_⟩
  intro h
  rw [heng, huix]
  rcases h with h | h
  · rw [if_pos h]
    exact ⟨rfl, rfl⟩
  · by_cases hnil : (parseKeyValueSheet doc "Approval" 0 1 defaultSkipHeaders []).1 = []
    · rw [if_pos hnil]
      exact ⟨rfl, rfl⟩
    · rw [if_neg hnil, assocGet_not_has "status" "PENDING" _ h]
      exact ⟨rfl, rfl⟩

/-- Closed witness for the amended C5: with no Approval sheet at all the
status defaults to PENDING, and with an unrecognized "maybe" status it is
merely upper-cased. -/
theorem C5_amended_approval_status_witness :
    (engProcessFile (XlsDoc.mk []) [] (fun _ => "")).metadata.approval_status
        = "PENDING"
    ∧ (uixProcessFile (XlsDoc.mk []) [] (fun _ => "")).metadata.approval_status
        = "PENDING"
    ∧ (engProcessFile
        (XlsDoc.mk [("Approval",
          SheetData.grid [[CellValue.str "Status", CellValue.str "maybe"]])])
        [] (fun _ => "")).metadata.approval_status = "MAYBE" := by
  have h := (C5_amended_approval_status (XlsDoc.mk []) [] (fun _ => "")).2.2
    (Or.inl (by decide))
  refine ⟨h.1, h.2, ?_⟩
  rw [(C5_amended_approval_status
    (XlsDoc.mk [("Approval",
      SheetData.grid [[CellValue.str "Status", CellValue.str "maybe"]])])
    [] (fun _ => "")).1]
  decide
